import Mathlib

/-!
Shallow embedding of `sysexecution/contract_orders.py` from pysystemtrade:
the contract tradeable-object key algebra, the `contractOrder` entity, and
the `contractOrderStackData` batch/engine operations, together with proofs
of the specified properties.

Python strings are embedded as Lean `String`; `str.split(sep)` for a
one-character separator and `sep.join(parts)` are embedded as structural
functions over the underlying character list so that they compute by
kernel reduction.
-/

namespace PySysTrade

/-- Embedding of Python `s.split(c)` for a single-character separator `c`:
`List.splitOn` on the character list (Python: `"".split("/") == [""]`,
matching `[].splitOn c = [[]]`). -/
def pySplit (c : Char) (s : String) : List String :=
  (s.data.splitOn c).map String.mk

/-- Embedding of Python `sep.join(parts)` on `String`. -/
def pyJoin (sep : String) (parts : List String) : String :=
  String.mk (List.intercalate sep.data (parts.map String.data))

/-- `contractTradeableObject`: strategy name, instrument code and a list of
contract legs (the constructor turns a single contract string into a
one-element list, so the stored form is always a list). -/
structure contractTradeableObject where
  strategy_name : String
  instrument_code : String
  contract_id : List String
deriving DecidableEq, Repr

namespace contractTradeableObject

/-- `contract_id_key` property: legs joined by `"_"`. -/
def contract_id_key (t : contractTradeableObject) : String :=
  pyJoin "_" t.contract_id

/-- `key` property: `strategy/instrument/contract_id_key`. -/
def key (t : contractTradeableObject) : String :=
  pyJoin "/" [t.strategy_name, t.instrument_code, t.contract_id_key]

/-- `alt_contract_id_key` property: appends `"00"` when the joined contract
key has six characters, keeps the first six characters when it has eight,
and otherwise falls off the end of the Python function, returning `None`
(embedded as `none`). -/
def alt_contract_id_key (t : contractTradeableObject) : Option String :=
  if t.contract_id_key.data.length = 6 then
    some (String.mk (t.contract_id_key.data ++ ['0', '0']))
  else if t.contract_id_key.data.length = 8 then
    some (String.mk (t.contract_id_key.data.take 6))
  else
    none

/-- `alt_key` property: joins strategy, instrument and `alt_contract_id_key`
with `"/"`.  When `alt_contract_id_key` is `None` the Python `"/".join`
raises a `TypeError`; that failure is embedded as `none`. -/
def alt_key (t : contractTradeableObject) : Option String :=
  (t.alt_contract_id_key).map
    (fun a => pyJoin "/" [t.strategy_name, t.instrument_code, a])

/-- `from_key` classmethod: `key.split("/")` unpacked into exactly three
components (a Python `ValueError` for any other shape, embedded as `none`),
then the contract component split on `"_"` into the leg list. -/
def from_key (k : String) : Option contractTradeableObject :=
  match pySplit '/' k with
  | [strategy_name, instrument_code, contract_id_str] =>
      some ⟨strategy_name, instrument_code, pySplit '_' contract_id_str⟩
  | _ => none

end contractTradeableObject

/-- Constant `MODIFICATION_STATUS_NO_MODIFICATION` imported from
`base_orders`. -/
def MODIFICATION_STATUS_NO_MODIFICATION : String := "No modification"

/-- The `contractOrder` entity.  Sentinels `no_order_id`, `no_parent` and
`no_children` are embedded as `none`; datetimes as `Option Nat` timestamps;
the float price fields are only carried, never computed on, and are embedded
as `Option Int`.  The `_order_info` dictionary entries are flattened into
named fields. -/
structure contractOrder where
  tradeable_object : contractTradeableObject
  trade : List Int
  fill : List Int
  fill_datetime : Option Nat
  filled_price : Option Int
  locked : Bool
  order_id : Option Nat
  modification_status : String
  modification_quantity : Option (List Int)
  parent : Option Nat
  children : Option (List Nat)
  active : Bool
  algo_to_use : String
  reference_price : Option Int
  limit_price : Option Int
  manual_trade : Bool
  manual_fill : Bool
  roll_order : Bool
  calendar_spread_order : Bool
  inter_spread_order : Bool
  generated_datetime : Nat
  reference_of_controlling_algo : Option String
deriving DecidableEq, Repr

/-- The keyword arguments of `contractOrder.__init__`, with the Python
default values. -/
structure contractOrderArgs where
  fill : Option (List Int) := none
  locked : Bool := false
  order_id : Option Nat := none
  modification_status : String := MODIFICATION_STATUS_NO_MODIFICATION
  modification_quantity : Option (List Int) := none
  parent : Option Nat := none
  children : Option (List Nat) := none
  active : Bool := true
  algo_to_use : String := ""
  reference_price : Option Int := none
  limit_price : Option Int := none
  filled_price : Option Int := none
  fill_datetime : Option Nat := none
  generated_datetime : Option Nat := none
  manual_fill : Bool := false
  manual_trade : Bool := false
  roll_order : Bool := false
  inter_spread_order : Bool := false
  calendar_spread_order : Option Bool := none
  reference_of_controlling_algo : Option String := none
deriving DecidableEq, Repr

namespace contractOrder

/-- `contractOrder.__init__` after `_resolve_args`: the tradeable object and
the trade list are already resolved (a scalar trade has been wrapped into a
one-element list).  `fill` defaults to a zero vector of the trade's length;
`calendar_spread_order` is overwritten from the trade length regardless of
the value passed in; a missing `generated_datetime` is replaced by the

current time, passed in here as `now`. -/
def make (tradeable_object : contractTradeableObject) (trade : List Int)
    (a : contractOrderArgs) (now : Nat) : contractOrder :=
  let fill := a.fill.getD (List.replicate trade.length 0)
  let calendar_spread_order := if trade.length = 1 then false else true
  let generated_datetime := a.generated_datetime.getD now
  { tradeable_object := tradeable_object
    trade := trade
    fill := fill
    fill_datetime := a.fill_datetime
    filled_price := a.filled_price
    locked := a.locked
    order_id := a.order_id
    modification_status := a.modification_status
    modification_quantity := a.modification_quantity
    parent := a.parent
    children := a.children
    active := a.active
    algo_to_use := a.algo_to_use
    reference_price := a.reference_price
    limit_price := a.limit_price
    manual_trade := a.manual_trade
    manual_fill := a.manual_fill
    roll_order := a.roll_order
    calendar_spread_order := calendar_spread_order
    inter_spread_order := a.inter_spread_order
    generated_datetime := generated_datetime
    reference_of_controlling_algo := a.reference_of_controlling_algo }

/-- The flat dictionary from which `contractOrder.from_dict` rebuilds an
order: the popped named fields plus the `order_info` keyword fields. -/
structure orderAsDict where
  key : String
  trade : List Int
  fill : Option (List Int)
  filled_price : Option Int
  fill_datetime : Option Nat
  locked : Bool
  order_id : Option Nat
  modification_status : String
  modification_quantity : Option (List Int)
  parent : Option Nat
  children : Option (List Nat)
  active : Bool
  algo_to_use : String
  reference_price : Option Int
  limit_price : Option Int
  manual_trade : Bool
  manual_fill : Bool
  roll_order : Bool
  inter_spread_order : Bool
  calendar_spread_order : Option Bool
  generated_datetime : Option Nat
  reference_of_controlling_algo : Option String
deriving DecidableEq, Repr

/-- `contractOrder.from_dict`: pops the named fields and calls the
constructor with the key string (parsed by `from_key`, which raises —
embedded as `none` — on a malformed key) and every remaining field passed
through unchanged, `fill` included. -/
def from_dict (d : orderAsDict) (now : Nat) : Option contractOrder :=
  (contractTradeableObject.from_key d.key).map (fun tradeable_object =>
    make tradeable_object d.trade
      { fill := d.fill
        locked := d.locked
        order_id := d.order_id
        modification_status := d.modification_status
        modification_quantity := d.modification_quantity
        parent := d.parent
        children := d.children
        active := d.active
        algo_to_use := d.algo_to_use
        reference_price := d.reference_price
        limit_price := d.limit_price
        filled_price := d.filled_price
        fill_datetime := d.fill_datetime
        generated_datetime := d.generated_datetime
        manual_fill := d.manual_fill
        manual_trade := d.manual_trade
        roll_order := d.roll_order
        inter_spread_order := d.inter_spread_order
        calendar_spread_order := d.calendar_spread_order
        reference_of_controlling_algo := d.reference_of_controlling_algo }
      now)

/-- `is_order_controlled_by_algo`: the controlling reference is not `None`. -/
def is_order_controlled_by_algo (o : contractOrder) : Bool :=
  o.reference_of_controlling_algo.isSome

/-- `contractOrder.add_controlling_algo_ref`: raises "Already controlled"
(embedded as `Except.error`) when a controlling reference is already set —
the existing reference is untouched, since the Python assignment comes after
the raise; otherwise stores the new reference and returns `success`. -/
def add_controlling_algo_ref (o : contractOrder) (control_algo_ref : String) :
    Except String contractOrder :=
  if o.is_order_controlled_by_algo then
    Except.error ("Already controlled by " ++
      (o.reference_of_controlling_algo.getD ""))
  else
    Except.ok { o with reference_of_controlling_algo := some control_algo_ref }

/-- `contractOrder.release_order_from_algo_control`: unconditionally clears
the controlling reference. -/
def release_order_from_algo_control (o : contractOrder) : contractOrder :=
  { o with reference_of_controlling_algo := none }

/-- `Order.lock_order` from the base class: sets the locked flag. -/
def lock_order (o : contractOrder) : contractOrder :=
  { o with locked := true }

/-- `Order.unlock_order` from the base class: clears the locked flag. -/
def unlock_order (o : contractOrder) : contractOrder :=
  { o with locked := false }

/-- `same_trade_size`: elementwise equality of the zipped trade vectors
(Python `all([x==y for x,y in zip(my_trade, other_trade)])`). -/
def same_trade_size (o other : contractOrder) : Bool :=
  ((o.trade.zip other.trade).map (fun p => p.1 == p.2)).all id

end contractOrder

/-- The order-stack state: the keyed collection of orders (an association
list from order id to order, in insertion order) together with the id
allocator.  The abstract base class `orderStackData` lives outside the
sources here; its state is modelled from the spec (a mapping from
stack-assigned, monotonically increasing ids to orders). -/
structure OrderStack where
  stack : List (Nat × contractOrder)
  order_id_counter : Nat
deriving DecidableEq, Repr

/-- Lookup of the order stored under an id in the association list. -/
def lookupOrder : List (Nat × contractOrder) → Nat → Option contractOrder
  | [], _ => none
  | p :: rest, order_id =>
      if p.1 = order_id then some p.2 else lookupOrder rest order_id

/-- Pointwise update of the entry stored under an id. -/
def mapOrderAt (l : List (Nat × contractOrder)) (order_id : Nat)
    (f : contractOrder → contractOrder) : List (Nat × contractOrder) :=
  l.map (fun p => if p.1 = order_id then (p.1, f p.2) else p)

/-- Removal of the entry stored under an id. -/
def removeOrderAt (l : List (Nat × contractOrder)) (order_id : Nat) :
    List (Nat × contractOrder) :=
  l.filter (fun p => p.1 != order_id)

namespace OrderStack

/-- Modelled from the spec: `orderStackData.get_order_with_id_from_stack`
(base class, not in the sources) returns the stored order or the
`missing_order` sentinel, embedded as `none`. -/
def get_order_with_id_from_stack (st : OrderStack) (order_id : Nat) :
    Option contractOrder :=
  lookupOrder st.stack order_id

/-- Modelled from the spec: `orderStackData.put_order_on_stack` (base class,
not in the sources) fails with a duplicate condition if an order with the
same tradeable-object key and matching trade vector is already active on the
stack; otherwise it allocates a fresh monotonic id, stores the order under
it (stamping the id on the order) and returns the id. -/
def put_order_on_stack (st : OrderStack) (order : contractOrder) :
    Except String Nat × OrderStack :=
  if st.stack.any (fun p =>
      p.2.active && (p.2.tradeable_object == order.tradeable_object) &&
        p.2.same_trade_size order) then
    (Except.error "duplicate order", st)
  else
    let new_id := st.order_id_counter
    (Except.ok new_id,
      { stack := st.stack ++ [(new_id, { order with order_id := some new_id })],
        order_id_counter := new_id + 1 })

/-- Modelled from the spec: `orderStackData._change_order_on_stack` (base
class, not in the sources) is an optimistic conditional update: it fails if
the id is absent; when the modification check is on it also fails if the
stored order has an in-flight modification; otherwise it replaces the
stored order. -/
def change_order_on_stack (st : OrderStack) (order_id : Nat)
    (new_order : contractOrder) (check_if_orders_being_modified : Bool) :
    Except String Unit × OrderStack :=
  match lookupOrder st.stack order_id with
  | none => (Except.error "order not found", st)
  | some existing =>
      if check_if_orders_being_modified &&
          (existing.modification_status != MODIFICATION_STATUS_NO_MODIFICATION)
          then
        (Except.error "order is being modified", st)
      else
        (Except.ok (),
          { st with stack := mapOrderAt st.stack order_id (fun _ => new_order) })

/-- Modelled from the spec: `orderStackData._unlock_order_on_stack` (base
class, not in the sources) force-unlocks the stored order. -/
def unlock_order_on_stack (st : OrderStack) (order_id : Nat) : OrderStack :=
  { st with stack := mapOrderAt st.stack order_id contractOrder.unlock_order }

/-- Modelled from the spec: `orderStackData.deactivate_order` (base class,
not in the sources) marks the stored order inactive. -/
def deactivate_order (st : OrderStack) (order_id : Nat) : OrderStack :=
  { st with
    stack := mapOrderAt st.stack order_id (fun o => { o with active := false }) }

/-- Modelled from the spec: `orderStackData.remove_order_with_id_from_stack`
(base class, not in the sources) physically removes the entry. -/
def remove_order_with_id_from_stack (st : OrderStack) (order_id : Nat) :
    OrderStack :=
  { st with stack := removeOrderAt st.stack order_id }

/-- `contractOrderStackData.rollback_list_of_orders_on_stack`: for each id,
in order: unlock, deactivate, remove. -/
def rollback_list_of_orders_on_stack (st : OrderStack) (ids : List Nat) :
    OrderStack :=
  ids.foldl (fun s order_id =>
    remove_order_with_id_from_stack
      (deactivate_order (unlock_order_on_stack s order_id) order_id) order_id) st

/-- `contractOrderStackData.unlock_list_of_orders`: unlocks each id. -/
def unlock_list_of_orders (st : OrderStack) (ids : List Nat) : OrderStack :=
  ids.foldl (fun s order_id => unlock_order_on_stack s order_id) st

/-- The insertion loop inside `put_list_of_orders_on_stack`: each order is
locked, then put on the stack; a non-id result stops the loop with failure
status, otherwise the new id is appended and the loop continues.  Returns
the accumulated ids, the state reached, and the success status. -/
def put_orders_loop (st : OrderStack) (orders : List contractOrder)
    (acc : List Nat) : List Nat × OrderStack × Bool :=
  match orders with
  | [] => (acc, st, true)
  | o :: rest =>
      match put_order_on_stack st o.lock_order with
      | (Except.ok child_id, st1) => put_orders_loop st1 rest (acc ++ [child_id])
      | (Except.error _, st1) => (acc, st1, false)

/-- `contractOrderStackData.put_list_of_orders_on_stack`: an empty list
returns an empty id list at once; otherwise the orders are locked and
inserted one by one; on any insertion failure the succeeded ids are rolled
back and the call returns `failure` (embedded as `none`); on full success
the ids are returned, after an unlock pass when requested. -/
def put_list_of_orders_on_stack (st : OrderStack)
    (list_of_contract_orders : List contractOrder)
    (unlock_when_finished : Bool) :
    Option (List Nat) × OrderStack :=
  if list_of_contract_orders.length = 0 then (some [], st)
  else
    let r := put_orders_loop st list_of_contract_orders []
    if r.2.2 then
      if unlock_when_finished then
        (some r.1, unlock_list_of_orders r.2.1 r.1)
      else (some r.1, r.2.1)
    else
      (none, rollback_list_of_orders_on_stack r.2.1 r.1)

/-- `contractOrderStackData.release_order_from_algo_control`: raises on a
missing id; succeeds without any write when the order is not controlled;
otherwise writes back a copy with the reference cleared (modification check
off), raising if the write fails. -/
def release_order_from_algo_control (st : OrderStack) (order_id : Nat) :
    Except String Unit × OrderStack :=
  match st.get_order_with_id_from_stack order_id with
  | none => (Except.error "order does not exist", st)
  | some existing_order =>
      if !existing_order.is_order_controlled_by_algo then
        (Except.ok (), st)
      else
        let modified_order := existing_order.release_order_from_algo_control
        match st.change_order_on_stack order_id modified_order false with
        | (Except.ok _, st1) => (Except.ok (), st1)
        | (Except.error e, st1) => (Except.error e, st1)

/-- `contractOrderStackData.add_controlling_algo_ref`: a `None` reference
delegates to `release_order_from_algo_control`; otherwise it raises on a
missing id, tries the order-level add on a copy (re-raising the "already
controlled" error), and writes the copy back with the modification check
off, raising if the write fails. -/
def add_controlling_algo_ref (st : OrderStack) (order_id : Nat)
    (control_algo_ref : Option String) : Except String Unit × OrderStack :=
  match control_algo_ref with
  | none => st.release_order_from_algo_control order_id
  | some r =>
      match st.get_order_with_id_from_stack order_id with
      | none => (Except.error "order does not exist", st)
      | some existing_order =>
          match existing_order.add_controlling_algo_ref r with
          | Except.error e =>
              (Except.error (e ++ " could not add controlling algo"), st)
          | Except.ok modified_order =>
              match st.change_order_on_stack order_id modified_order false with
              | (Except.ok _, st1) => (Except.ok (), st1)
              | (Except.error e, st1) => (Except.error e, st1)

end OrderStack

/-! Sample objects used by the concrete witnesses. -/

/-- A single-leg tradeable object. -/
def tobEx : contractTradeableObject := ⟨"stratA", "EDOLLAR", ["201903"]⟩

/-- A two-leg (calendar-spread) tradeable object. -/
def tobSpread : contractTradeableObject := ⟨"stratA", "EDOLLAR", ["201903", "201906"]⟩

/-- An uncontrolled order on `tobEx`. -/
def oPlain : contractOrder := contractOrder.make tobEx [6] {} 0

/-- An order on `tobEx` already controlled by `"algo1"`. -/
def oControlled : contractOrder :=
  contractOrder.make tobEx [6] { reference_of_controlling_algo := some "algo1" } 0

/-- A stack holding `oPlain` under id 0. -/
def stPlain : OrderStack := ⟨[(0, oPlain)], 1⟩

/-- A stack holding `oControlled` under id 0. -/
def stControlled : OrderStack := ⟨[(0, oControlled)], 1⟩

/-- A fresh order duplicating `oPlain` (same tradeable object, same trade):
inserting it on `stPlain` triggers the duplicate failure of
`put_order_on_stack`. -/
def oDup : contractOrder := contractOrder.make tobEx [6] {} 3

/-- The flat dictionary of an order whose explicitly supplied fill vector is
longer than its trade vector. -/
def dFillMismatch : contractOrder.orderAsDict :=
  { key := "stratA/EDOLLAR/201903"
    trade := [6]
    fill := some [0, 0]
    filled_price := none
    fill_datetime := none
    locked := false
    order_id := none
    modification_status := MODIFICATION_STATUS_NO_MODIFICATION
    modification_quantity := none
    parent := none
    children := none
    active := true
    algo_to_use := ""
    reference_price := none
    limit_price := none
    manual_trade := false
    manual_fill := false
    roll_order := false
    inter_spread_order := false
    calendar_spread_order := none
    generated_datetime := none
    reference_of_controlling_algo := none }

/-- C5 counterexample: `from_dict` with an explicitly supplied fill of a
different length than the trade constructs an order with
`len(fill) = 2 ≠ 1 = len(trade)`; the constructor performs no length check
on a supplied fill, so the claimed invariant fails at this input. -/
theorem claim_C5_counterexample :
    (contractOrder.from_dict dFillMismatch 0).map
      (fun o => (o.fill.length, o.trade.length)) = some (2, 1) := by
  decide

/-- C5 amended: when no fill is supplied (`fill=None`), the constructor
defaults the fill to a zero vector of the trade's length, so
`len(fill) = len(trade)` holds immediately after construction. -/
theorem claim_C5_fill_length_default (tob : contractTradeableObject)
    (trade : List Int) (a : contractOrderArgs) (now : Nat) :
    (contractOrder.make tob trade { a with fill := none } now).fill.length =
      (contractOrder.make tob trade { a with fill := none } now).trade.length := by
  simp [contractOrder.make]

/-- C6: for every constructed order with a non-empty trade vector,
`calendar_spread_order` is true exactly when the trade vector has more than
one entry, and the constructor ignores any `calendar_spread_order` value
passed in. -/
theorem claim_C6_calendar_spread_flag (tob : contractTradeableObject)
    (trade : List Int) (a : contractOrderArgs) (now : Nat) (h : trade ≠ []) :
    ((contractOrder.make tob trade a now).calendar_spread_order = true ↔
      1 < trade.length) ∧
    ∀ c : Option Bool,
      contractOrder.make tob trade { a with calendar_spread_order := c } now =
        contractOrder.make tob trade a now := by
  constructor
  · have hl : trade.length ≠ 0 := fun h0 => h (List.length_eq_zero.mp h0)
    by_cases h1 : trade.length = 1
    · simp [contractOrder.make, h1]
    · have h2 : 1 < trade.length :=
        Nat.lt_of_le_of_ne (Nat.one_le_iff_ne_zero.mpr hl) (Ne.symm h1)
      simp [contractOrder.make, h1, h2]
  · intro c
    simp [contractOrder.make]

/-- C6 witness: the spec scenario `trade = [6, -6]` instantiates the
theorem — the flag is automatically true for the two-leg trade, whatever
`calendar_spread_order` value is passed. -/
theorem claim_C6_witness :
    (([6, -6] : List Int) ≠ []) ∧
    (((contractOrder.make tobSpread [6, -6] {} 5).calendar_spread_order = true ↔
        1 < ([6, -6] : List Int).length) ∧
      ∀ c : Option Bool,
        contractOrder.make tobSpread [6, -6]
            { ({} : contractOrderArgs) with calendar_spread_order := c } 5 =
          contractOrder.make tobSpread [6, -6] {} 5) :=
  ⟨by decide, claim_C6_calendar_spread_flag tobSpread [6, -6] {} 5 (by decide)⟩

/-- C7: when an order already carries a controlling-algo reference, the
order-level `add_controlling_algo_ref` raises (leaving the reference as it
was, since the assignment follows the raise), and the stack-level operation
on its id with any non-null new reference raises and returns with the stack
state unchanged. -/
theorem claim_C7_double_control_fails (o : contractOrder) (r : String)
    (h : o.reference_of_controlling_algo = some r) (newref : String)
    (st : OrderStack) (order_id : Nat)
    (hget : st.get_order_with_id_from_stack order_id = some o) :
    (∃ e, o.add_controlling_algo_ref newref = Except.error e) ∧
    ∃ e2, st.add_controlling_algo_ref order_id (some newref) =
      (Except.error e2, st) := by
  have hc : o.is_order_controlled_by_algo = true := by
    simp [contractOrder.is_order_controlled_by_algo, h]
  have hadd : o.add_controlling_algo_ref newref =
      Except.error ("Already controlled by " ++ r) := by
    simp [contractOrder.add_controlling_algo_ref, hc, h]
  refine ⟨⟨_, hadd⟩,
    ⟨("Already controlled by " ++ r) ++ " could not add controlling algo", ?_⟩⟩
  simp [OrderStack.add_controlling_algo_ref, hget, hadd]

/-- C7 witness: the theorem applied to an order controlled by `"algo1"` and
an attempted takeover by `"algo2"`. -/
theorem claim_C7_witness :
    (oControlled.reference_of_controlling_algo = some "algo1" ∧
      stControlled.get_order_with_id_from_stack 0 = some oControlled) ∧
    (∃ e, oControlled.add_controlling_algo_ref "algo2" = Except.error e) ∧
    ∃ e2, stControlled.add_controlling_algo_ref 0 (some "algo2") =
      (Except.error e2, stControlled) :=
  ⟨⟨by decide, by decide⟩,
    claim_C7_double_control_fails oControlled "algo1" (by decide) "algo2"
      stControlled 0 (by decide)⟩

/-- C8: releasing algo control of a stored order that is not controlled
returns `success` with the stack state untouched (no write is performed),
and therefore releasing twice equals releasing once. -/
theorem claim_C8_release_uncontrolled_noop (st : OrderStack) (order_id : Nat)
    (o : contractOrder)
    (hget : st.get_order_with_id_from_stack order_id = some o)
    (hun : o.reference_of_controlling_algo = none) :
    st.release_order_from_algo_control order_id = (Except.ok (), st) ∧
    (st.release_order_from_algo_control order_id).2.release_order_from_algo_control
        order_id = st.release_order_from_algo_control order_id := by
  have hc : o.is_order_controlled_by_algo = false := by
    simp [contractOrder.is_order_controlled_by_algo, hun]
  have h1 : st.release_order_from_algo_control order_id = (Except.ok (), st) := by
    simp [OrderStack.release_order_from_algo_control, hget, hc]
  exact ⟨h1, by rw [h1]; exact h1⟩

/-- C8 witness: the theorem applied to the uncontrolled order `oPlain`
stored under id 0. -/
theorem claim_C8_witness :
    (stPlain.get_order_with_id_from_stack 0 = some oPlain ∧
      oPlain.reference_of_controlling_algo = none) ∧
    stPlain.release_order_from_algo_control 0 = (Except.ok (), stPlain) ∧
    (stPlain.release_order_from_algo_control 0).2.release_order_from_algo_control 0
      = stPlain.release_order_from_algo_control 0 :=
  ⟨⟨by decide, by decide⟩,
    claim_C8_release_uncontrolled_noop stPlain 0 oPlain (by decide) (by decide)⟩

/-- C9: submitting the empty order list returns the empty id list at once
and leaves the whole stack state — the stored orders and the id counter —
unchanged, performing no store reads or writes. -/
theorem claim_C9_empty_batch_noop (st : OrderStack) (unlock_when_finished : Bool) :
    st.put_list_of_orders_on_stack [] unlock_when_finished = (some [], st) := rfl

/-- C10: the stack-level `add_controlling_algo_ref` with a `None` reference
is exactly `release_order_from_algo_control` on the same id. -/
theorem claim_C10_add_none_is_release (st : OrderStack) (order_id : Nat) :
    st.add_controlling_algo_ref order_id none =
      st.release_order_from_algo_control order_id := rfl

/-! Helper lemmas about the string split/join embedding. -/

/-- Rebuilding a string from its character list is the identity. -/
theorem string_mk_data (s : String) : String.mk s.data = s := by
  cases s
  rfl

/-- `intercalate` over a singleton returns its element. -/
theorem intercalate_single (sep a : List Char) :
    List.intercalate sep [a] = a := by
  simp [List.intercalate]

/-- `intercalate` over a two-or-more-element list peels off the head and one
separator. -/
theorem intercalate_cons_two (sep a b : List Char) (tl : List (List Char)) :
    List.intercalate sep (a :: b :: tl) =
      a ++ sep ++ List.intercalate sep (b :: tl) := by
  simp [List.intercalate]

/-- The head of a joined non-empty list is no longer than the join. -/
theorem head_length_le_intercalate (sep b : List Char) (tl : List (List Char)) :
    b.length ≤ (List.intercalate sep (b :: tl)).length := by
  cases tl with
  | nil => simp [List.intercalate]
  | cons c tl2 =>
      rw [intercalate_cons_two]
      simp only [List.length_append]
      omega

/-- Splitting on a character yields one more part than the character's
occurrence count (so: exactly two separators iff exactly three parts). -/
theorem length_splitOn_count (c : Char) (l : List Char) :
    (l.splitOn c).length = l.count c + 1 := by
  induction l with
  | nil => rfl
  | cons x xs ih =>
      simp only [List.splitOn, List.splitOnP_cons, List.count_cons] at ih ⊢
      by_cases hx : x = c
      · simp only [hx, beq_self_eq_true, if_true, List.length_cons]
        omega
      · have hbx : (x == c) = false := by simp [hx]
        simp only [hbx, if_false, Bool.false_eq_true]
        rcases h : xs.splitOnP (· == c) with _ | ⟨hd, tl⟩
        · exact absurd h (List.splitOnP_ne_nil _ xs)
        · rw [h] at ih
          simpa using ih

/-- `from_key` returns `None` exactly when the key does not split into three
parts on `"/"`. -/
theorem from_key_none_iff (k : String) :
    contractTradeableObject.from_key k = none ↔
      (k.data.splitOn '/').length ≠ 3 := by
  unfold contractTradeableObject.from_key pySplit
  rcases hsp : k.data.splitOn '/' with _ | ⟨a, _ | ⟨b, _ | ⟨c, _ | ⟨d, rest⟩⟩⟩⟩ <;>
    simp

/-- A character outside the separator and outside every part is outside the
join. -/
theorem not_mem_intercalate (x : Char) (sep : List Char) :
    ∀ ls : List (List Char), x ∉ sep → (∀ l ∈ ls, x ∉ l) →
      x ∉ List.intercalate sep ls
  | [], _, _ => by simp [List.intercalate]
  | [a], _, hl => by
      rw [intercalate_single]
      exact hl a (List.mem_cons_self a [])
  | a :: b :: tl, hs, hl => by
      rw [intercalate_cons_two]
      intro hmem
      rcases List.mem_append.mp hmem with hin | hin
      · rcases List.mem_append.mp hin with hin2 | hin2
        · exact hl a (List.mem_cons_self a _) hin2
        · exact hs hin2
      · exact not_mem_intercalate x sep (b :: tl) hs
          (fun l hm => hl l (List.mem_cons_of_mem _ hm)) hin

/-- Mapping the string wrapper and then the character-list projection over a
list of character lists is the identity. -/
theorem map_data_map_mk (L : List (List Char)) :
    (L.map String.mk).map String.data = L := by
  induction L with
  | nil => rfl
  | cons a tl ih => simp [ih]

/-- C3 counterexample: a key with exactly two `"/"` separators but an empty
leg component parses successfully — `from_key` does not fail on an empty leg
string, contradicting the claim that it must. -/
theorem claim_C3_counterexample :
    contractTradeableObject.from_key "a/b/" = some ⟨"a", "b", [""]⟩ := by
  decide

/-- C3 amended: `from_key(s)` fails (with a parse error, constructing no
object) exactly when `s` does not contain exactly two `"/"` separators; leg
strings that are empty after splitting on `"_"` are accepted. -/
theorem claim_C3_from_key_failure_amended (s : String) :
    contractTradeableObject.from_key s = none ↔ s.data.count '/' ≠ 2 := by
  rw [from_key_none_iff]
  have h := length_splitOn_count '/' s.data
  omega

/-- C4 counterexample: on a two-leg (spread) object the joined contract key
has thirteen characters, so `alt_contract_id_key` is `None` and `alt_key`
raises — `alt_key` is not total on multi-leg objects, contradicting the
claim. -/
theorem claim_C4_counterexample : tobSpread.alt_key = none := by
  decide

/-- C4 amended: `alt_key` substitutes on the joined contract key, not per
leg: it appends `"00"` when that key has six characters, keeps the first six
when it has eight, and fails (returns `None`, so the join raises) otherwise —
in particular for every multi-leg spread object with six-character legs. -/
theorem claim_C4_alt_key_amended (t : contractTradeableObject) :
    (∀ leg, t.contract_id = [leg] → leg.length = 6 →
      t.alt_key = some (pyJoin "/"
        [t.strategy_name, t.instrument_code, String.mk (leg.data ++ ['0', '0'])])) ∧
    (∀ leg, t.contract_id = [leg] → leg.length = 8 →
      t.alt_key = some (pyJoin "/"
        [t.strategy_name, t.instrument_code, String.mk (leg.data.take 6)])) ∧
    (∀ l1 l2 rest, t.contract_id = l1 :: l2 :: rest →
      (∀ leg ∈ t.contract_id, leg.length = 6) →
      t.alt_key = none) := by
  have hkey : ∀ leg, t.contract_id = [leg] → t.contract_id_key = leg := by
    intro leg hleg
    unfold contractTradeableObject.contract_id_key pyJoin
    rw [hleg]
    simp only [List.map_cons, List.map_nil, intercalate_single]
  refine ⟨?_, ?_, ?_⟩
  · intro leg hleg h6
    simp [contractTradeableObject.alt_key,
      contractTradeableObject.alt_contract_id_key, hkey leg hleg, h6]
  · intro leg hleg h8
    simp [contractTradeableObject.alt_key,
      contractTradeableObject.alt_contract_id_key, hkey leg hleg, h8]
  · intro l1 l2 rest hshape hall
    have hl1 : l1.length = 6 := by
      refine hall l1 ?_
      rw [hshape]
      exact List.mem_cons_self l1 _
    have hl2 : l2.length = 6 := by
      refine hall l2 ?_
      rw [hshape]
      exact List.mem_cons_of_mem _ (List.mem_cons_self l2 _)
    have hdata : t.contract_id_key.data =
        List.intercalate ['_'] (l1.data :: l2.data :: rest.map String.data) := by
      simp [contractTradeableObject.contract_id_key, pyJoin, hshape]
    have hge : 13 ≤ t.contract_id_key.length := by
      rw [← String.length_data, hdata, intercalate_cons_two]
      have h2 := head_length_le_intercalate ['_'] l2.data (rest.map String.data)
      rw [String.length_data] at h2
      simp only [List.length_append, List.length_cons, List.length_nil,
        String.length_data]
      omega
    have h6 : ¬ t.contract_id_key.length = 6 := by omega
    have h8 : ¬ t.contract_id_key.length = 8 := by omega
    simp [contractTradeableObject.alt_key,
      contractTradeableObject.alt_contract_id_key, h6, h8]

/-- C4 witness for the amended claim: the two-leg object `tobSpread` has
six-character legs and its `alt_key` is `None`. -/
theorem claim_C4_witness :
    (tobSpread.contract_id = ["201903", "201906"] ∧
      (∀ leg ∈ tobSpread.contract_id, leg.length = 6)) ∧
    tobSpread.alt_key = none :=
  ⟨⟨by decide, by decide⟩,
    (claim_C4_alt_key_amended tobSpread).2.2 "201903" "201906" []
      (by decide) (by decide)⟩

/-- C2: for every tradeable object with a non-empty leg list whose
components are free of the `"/"` separator — exactly the objects whose keys
are valid, parseable key strings — `from_key` applied to the produced key
succeeds and the key of the parsed object is the original key string, in the
single-leg and the multi-leg case alike. -/
theorem claim_C2_key_round_trip (t : contractTradeableObject)
    (h1 : '/' ∉ t.strategy_name.data) (h2 : '/' ∉ t.instrument_code.data)
    (h3 : ∀ leg ∈ t.contract_id, '/' ∉ leg.data)
    (h4 : t.contract_id ≠ []) :
    ∃ t2, contractTradeableObject.from_key t.key = some t2 ∧
      t2.key = t.key := by
  have hck : '/' ∉ t.contract_id_key.data := by
    have hd : t.contract_id_key.data =
        List.intercalate ['_'] (t.contract_id.map String.data) := rfl
    rw [hd]
    refine not_mem_intercalate '/' ['_'] _ (by simp) ?_
    intro l hl
    rcases List.mem_map.mp hl with ⟨leg, hm, rfl⟩
    exact h3 leg hm
  have hkdata : t.key.data =
      List.intercalate ['/']
        [t.strategy_name.data, t.instrument_code.data, t.contract_id_key.data] :=
    rfl
  have hsplit : t.key.data.splitOn '/' =
      [t.strategy_name.data, t.instrument_code.data, t.contract_id_key.data] := by
    rw [hkdata]
    refine List.splitOn_intercalate _ '/' ?_ (by simp)
    intro l hl
    simp only [List.mem_cons, List.not_mem_nil, or_false] at hl
    rcases hl with rfl | rfl | rfl
    · exact h1
    · exact h2
    · exact hck
  have hjoin : pyJoin "_" (pySplit '_' t.contract_id_key) = t.contract_id_key := by
    unfold pyJoin pySplit
    rw [map_data_map_mk]
    show String.mk (List.intercalate ['_']
      (List.splitOn '_' t.contract_id_key.data)) = t.contract_id_key
    rw [List.intercalate_splitOn]
  refine ⟨⟨t.strategy_name, t.instrument_code, pySplit '_' t.contract_id_key⟩,
    ?_, ?_⟩
  · unfold contractTradeableObject.from_key pySplit
    rw [hsplit]
    rfl
  · show pyJoin "/" [t.strategy_name, t.instrument_code,
        contractTradeableObject.contract_id_key
          ⟨t.strategy_name, t.instrument_code, pySplit '_' t.contract_id_key⟩] =
      t.key
    rw [show contractTradeableObject.contract_id_key
        ⟨t.strategy_name, t.instrument_code, pySplit '_' t.contract_id_key⟩ =
        t.contract_id_key from hjoin]
    rfl

/-- C2 witness: the theorem applied to the two-leg object `tobSpread`, whose
components contain no separator. -/
theorem claim_C2_witness :
    ('/' ∉ tobSpread.strategy_name.data ∧ '/' ∉ tobSpread.instrument_code.data ∧
      (∀ leg ∈ tobSpread.contract_id, '/' ∉ leg.data) ∧
      tobSpread.contract_id ≠ []) ∧
    ∃ t2, contractTradeableObject.from_key tobSpread.key = some t2 ∧
      t2.key = tobSpread.key :=
  ⟨⟨by decide, by decide, by decide, by decide⟩,
    claim_C2_key_round_trip tobSpread (by decide) (by decide) (by decide)
      (by decide)⟩

/-! Helper lemmas for the batch-insertion rollback. -/

/-- Updating the entry under an id and then removing that id is the same as
just removing it. -/
theorem removeOrderAt_mapOrderAt (l : List (Nat × contractOrder)) (order_id : Nat)
    (f : contractOrder → contractOrder) :
    removeOrderAt (mapOrderAt l order_id f) order_id = removeOrderAt l order_id := by
  induction l with
  | nil => rfl
  | cons p tl ih =>
      simp only [mapOrderAt, removeOrderAt, List.map_cons, List.filter_cons] at ih ⊢
      by_cases hp : p.1 = order_id
      · simp [hp, ih]
      · simp [hp, ih]

/-- Removing an id that keys no entry of the list is the identity. -/
theorem removeOrderAt_not_mem (l : List (Nat × contractOrder)) (order_id : Nat)
    (h : ∀ p ∈ l, p.1 ≠ order_id) : removeOrderAt l order_id = l := by
  unfold removeOrderAt
  rw [List.filter_eq_self]
  intro p hp
  simpa using h p hp

/-- Compensating rollback over exactly the freshly inserted entries restores
the original stack: per id the unlock and deactivate updates touch only the
entry that the removal then deletes, and removal of ids that are not keyed
in the base leaves the base intact. -/
theorem rollback_stack_restores :
    ∀ (new : List (Nat × contractOrder)) (st : OrderStack)
      (base : List (Nat × contractOrder)),
      st.stack = base ++ new → (new.map Prod.fst).Nodup →
      (∀ p ∈ base, p.1 ∉ new.map Prod.fst) →
      (OrderStack.rollback_list_of_orders_on_stack st (new.map Prod.fst)).stack = base
  | [], st, base, hstack, _, _ => by
      simpa [OrderStack.rollback_list_of_orders_on_stack] using hstack
  | q :: new', st, base, hstack, hnodup, hbase => by
      have hnodup2 : q.1 ∉ new'.map Prod.fst ∧ (new'.map Prod.fst).Nodup :=
        List.nodup_cons.mp (by simpa using hnodup)
      have hstep : (OrderStack.remove_order_with_id_from_stack
          (OrderStack.deactivate_order
            (OrderStack.unlock_order_on_stack st q.1) q.1) q.1).stack =
          base ++ new' := by
        simp only [OrderStack.remove_order_with_id_from_stack,
          OrderStack.deactivate_order, OrderStack.unlock_order_on_stack]
        rw [removeOrderAt_mapOrderAt, removeOrderAt_mapOrderAt, hstack]
        have hb : removeOrderAt base q.1 = base := by
          refine removeOrderAt_not_mem base q.1 ?_
          intro p hp hEq
          refine hbase p hp ?_
          rw [hEq]
          simp
        have hn : removeOrderAt new' q.1 = new' := by
          refine removeOrderAt_not_mem new' q.1 ?_
          intro p hp hEq
          refine hnodup2.1 ?_
          rw [← hEq]
          exact List.mem_map_of_mem Prod.fst hp
        simp only [removeOrderAt] at hb hn ⊢
        simp [List.filter_append, hb, hn]
      have hbase2 : ∀ p ∈ base, p.1 ∉ new'.map Prod.fst := by
        intro p hp hmem
        exact hbase p hp (by simp [hmem])
      have hrec := rollback_stack_restores new'
        (OrderStack.remove_order_with_id_from_stack
          (OrderStack.deactivate_order
            (OrderStack.unlock_order_on_stack st q.1) q.1) q.1)
        base hstep hnodup2.2 hbase2
      rw [List.map_cons]
      exact hrec

/-- The insertion loop only appends entries: the state it reaches extends
the starting stack with a block of fresh entries whose ids — exactly the
ids it returns beyond the accumulator — are distinct and at least the
starting counter. -/
theorem put_orders_loop_spec :
    ∀ (orders : List contractOrder) (st : OrderStack) (acc : List Nat),
      ∃ new : List (Nat × contractOrder),
        (OrderStack.put_orders_loop st orders acc).2.1.stack = st.stack ++ new ∧
        (OrderStack.put_orders_loop st orders acc).1 = acc ++ new.map Prod.fst ∧
        (∀ p ∈ new, st.order_id_counter ≤ p.1) ∧
        (new.map Prod.fst).Nodup
  | [], st, acc => by
      refine ⟨[], ?_, ?_, by simp, by simp⟩
      · simp [OrderStack.put_orders_loop]
      · simp [OrderStack.put_orders_loop]
  | o :: rest, st, acc => by
      by_cases hdup : (st.stack.any fun p =>
          p.2.active && (p.2.tradeable_object == o.lock_order.tradeable_object) &&
            p.2.same_trade_size o.lock_order) = true
      · refine ⟨[], ?_, ?_, by simp, by simp⟩
        · simp [OrderStack.put_orders_loop, OrderStack.put_order_on_stack, hdup]
        · simp [OrderStack.put_orders_loop, OrderStack.put_order_on_stack, hdup]
      · obtain ⟨new', h1, h2, h3, h4⟩ := put_orders_loop_spec rest
          ⟨st.stack ++ [(st.order_id_counter,
              { o.lock_order with order_id := some st.order_id_counter })],
            st.order_id_counter + 1⟩
          (acc ++ [st.order_id_counter])
        have hloop : OrderStack.put_orders_loop st (o :: rest) acc =
            OrderStack.put_orders_loop
              ⟨st.stack ++ [(st.order_id_counter,
                  { o.lock_order with order_id := some st.order_id_counter })],
                st.order_id_counter + 1⟩
              rest (acc ++ [st.order_id_counter]) := by
          simp [OrderStack.put_orders_loop, OrderStack.put_order_on_stack, hdup]
        refine ⟨(st.order_id_counter,
            { o.lock_order with order_id := some st.order_id_counter }) :: new',
          ?_, ?_, ?_, ?_⟩
        · rw [hloop, h1]
          simp
        · rw [hloop, h2]
          simp
        · intro p hp
          rcases List.mem_cons.mp hp with rfl | hp2
          · exact Nat.le_refl _
          · exact Nat.le_of_succ_le (h3 p hp2)
        · rw [List.map_cons, List.nodup_cons]
          refine ⟨?_, h4⟩
          intro hmem
          rcases List.mem_map.mp hmem with ⟨q, hq, hq1⟩
          have h5 : st.order_id_counter + 1 ≤ q.1 := h3 q hq
          omega

/-- C1: whenever some insertion of a non-empty batch fails, the whole call
returns `failure`, the compensating rollback is applied to exactly the ids
that succeeded before the failure (unlock, deactivate, remove, per id in
order), and the stack afterwards holds exactly the orders it held before
the call.  The base-class store primitives are modelled from the spec. -/
theorem claim_C1_batch_failure_rollback (st : OrderStack)
    (orders : List contractOrder) (unlock_when_finished : Bool)
    (hinv : ∀ p ∈ st.stack, p.1 < st.order_id_counter)
    (hne : orders ≠ [])
    (hfail : (OrderStack.put_orders_loop st orders []).2.2 = false) :
    (st.put_list_of_orders_on_stack orders unlock_when_finished).1 = none ∧
    (st.put_list_of_orders_on_stack orders unlock_when_finished).2 =
      OrderStack.rollback_list_of_orders_on_stack
        (OrderStack.put_orders_loop st orders []).2.1
        (OrderStack.put_orders_loop st orders []).1 ∧
    ((st.put_list_of_orders_on_stack orders unlock_when_finished).2).stack =
      st.stack := by
  have hlen : ¬ (orders.length = 0) := fun h0 => hne (List.length_eq_zero.mp h0)
  have hput : st.put_list_of_orders_on_stack orders unlock_when_finished =
      (none, OrderStack.rollback_list_of_orders_on_stack
        (OrderStack.put_orders_loop st orders []).2.1
        (OrderStack.put_orders_loop st orders []).1) := by
    unfold OrderStack.put_list_of_orders_on_stack
    rw [if_neg hlen]
    simp only [hfail, Bool.false_eq_true, if_false]
  refine ⟨by rw [hput], by rw [hput], ?_⟩
  rw [hput]
  obtain ⟨new, h1, h2, h3, h4⟩ := put_orders_loop_spec orders st []
  rw [h2, List.nil_append]
  refine rollback_stack_restores new _ st.stack h1 h4 ?_
  intro p hp hmem
  rcases List.mem_map.mp hmem with ⟨q, hq, hq1⟩
  have hc := h3 q hq
  have hlt := hinv p hp
  rw [hq1] at hc
  omega

/-- C1 witness: a one-order batch on `stPlain` whose single insertion fails
(duplicate active order with the same key and trade), applied to the
theorem: the call fails and the stack is exactly restored. -/
theorem claim_C1_witness :
    ((∀ p ∈ stPlain.stack, p.1 < stPlain.order_id_counter) ∧
      ([oDup] : List contractOrder) ≠ [] ∧
      (OrderStack.put_orders_loop stPlain [oDup] []).2.2 = false) ∧
    (stPlain.put_list_of_orders_on_stack [oDup] true).1 = none ∧
    ((stPlain.put_list_of_orders_on_stack [oDup] true).2).stack =
      stPlain.stack :=
  ⟨⟨by decide, by decide, by decide⟩,
    (claim_C1_batch_failure_rollback stPlain [oDup] true (by decide) (by decide)
      (by decide)).1,
    (claim_C1_batch_failure_rollback stPlain [oDup] true (by decide) (by decide)
      (by decide)).2.2⟩

end PySysTrade
